import Mathlib

/-!
Verification of the Tic-Tac-Toe game engine
(`src/tic_tac_toe_backend/src/api/game_logic.py`).

The board is a 3×3 grid whose cells hold `none` (Python `None`) or
`some s` for a player-symbol string `s`.  All engine operations from
`game_logic.py` are embedded as pure Lean functions below, translated
directly from the Python source:

* `empty_board`    — `empty_board()`
* `validate_move`  — `validate_move(board, row, col)`
* `apply_move`     — `apply_move(board, row, col, symbol)`; Python list
  indexing accepts negative indices down to `-len`, so the embedding
  takes `Int` coordinates and returns `none` exactly when the Python
  code would raise `IndexError`
* `check_winner`   — `check_winner(board)`, scanning the same 8 lines
  in the same order as the Python loop builds them
* `is_board_full`  — `is_board_full(board)`
* `next_turn`      — `next_turn(current)`
* `best_ai_move`   — `best_ai_move(board, ai_symbol, user_symbol)`;
  the call `random.choice(empty)` is modelled by an extra argument
  `rnd : Nat` selecting index `rnd % empty.length` of the list of empty
  cells, so that every possible draw of the random source is covered by
  quantifying over `rnd`; the `raise Exception("No moves left")` branch
  is modelled by returning `none`
-/

namespace TicTacToe

/-- A board cell: `none` is an empty cell, `some s` holds symbol `s`. -/
abbrev Cell := Option String

/-- The 3×3 board, indexed by row then column. -/
abbrev Board := Fin 3 → Fin 3 → Cell

/-- Embeds `empty_board()` from game_logic.py: all cells unoccupied. -/
def empty_board : Board := fun _ _ => none

/-- Python indexing into a list of length 3: indices `0..2` are taken
as-is, `-3..-1` wrap by adding 3, anything else raises (`none`). -/
def pyIndex3 (i : Int) : Option (Fin 3) :=
  if h : 0 ≤ i ∧ i < 3 then some ⟨i.toNat, by omega⟩
  else if h2 : -3 ≤ i ∧ i < 0 then some ⟨(i + 3).toNat, by omega⟩
  else none

/-- Embeds `validate_move(board, row, col)` from game_logic.py:
`if 0 <= row < 3 and 0 <= col < 3: return board[row][col] is None`,
else `return False`. -/
def validate_move (b : Board) (row col : Int) : Bool :=
  if h : 0 ≤ row ∧ row < 3 ∧ 0 ≤ col ∧ col < 3 then
    (b ⟨row.toNat, by omega⟩ ⟨col.toNat, by omega⟩).isNone
  else false

/-- Functional update of one cell of a board (the effect of
`new_board[r][c] = v` on the copied board). -/
def setCell (b : Board) (r c : Fin 3) (v : Cell) : Board :=
  fun i j => if i = r ∧ j = c then v else b i j

/-- Embeds `apply_move(board, row, col, symbol)` from game_logic.py: copy the
rows and assign `new_board[row][col] = symbol`.  The assignment uses raw
Python list indexing, so negative indices down to `-3` wrap and indices
outside `-3..2` raise `IndexError` (modelled as `none`). -/
def apply_move (b : Board) (row col : Int) (symbol : String) : Option Board :=
  match pyIndex3 row, pyIndex3 col with
  | some r, some c => some (setCell b r c (some symbol))
  | _, _ => none

/-- The winner of a single line, from the loop body of `check_winner`:
`line[0] is not None and line[0] == line[1] == line[2]` returns
`line[0]`. -/
def lineWinner (l : Cell × Cell × Cell) : Option String :=
  match l.1 with
  | none => none
  | some s => if l.2.1 = some s ∧ l.2.2 = some s then some s else none

/-- The 8 lines of `check_winner`, in the exact order the Python code
appends them: for `i in range(3)` append row `i` then column `i`, then
the main diagonal, then the anti-diagonal. -/
def lines (b : Board) : List (Cell × Cell × Cell) :=
  [ (b 0 0, b 0 1, b 0 2), (b 0 0, b 1 0, b 2 0),
    (b 1 0, b 1 1, b 1 2), (b 0 1, b 1 1, b 2 1),
    (b 2 0, b 2 1, b 2 2), (b 0 2, b 1 2, b 2 2),
    (b 0 0, b 1 1, b 2 2), (b 0 2, b 1 1, b 2 0) ]

/-- Embeds `check_winner(board)` from game_logic.py: return the symbol of the
first fully-occupied single-symbol line in the list `lines`, else
`None`. -/
def check_winner (b : Board) : Option String :=
  (lines b).findSome? lineWinner

/-- Modelled from the spec: the 8 lines in the scan order the spec
states for `check_winner` — rows top-to-bottom, then columns
left-to-right, then the two diagonals. -/
def linesSpecOrder (b : Board) : List (Cell × Cell × Cell) :=
  [ (b 0 0, b 0 1, b 0 2), (b 1 0, b 1 1, b 1 2), (b 2 0, b 2 1, b 2 2),
    (b 0 0, b 1 0, b 2 0), (b 0 1, b 1 1, b 2 1), (b 0 2, b 1 2, b 2 2),
    (b 0 0, b 1 1, b 2 2), (b 0 2, b 1 1, b 2 0) ]

/-- Modelled from the spec: `check_winner` with the spec's scan order
(first matching line in rows-then-columns-then-diagonals order). -/
def check_winner_specOrder (b : Board) : Option String :=
  (linesSpecOrder b).findSome? lineWinner

/-- The 9 cell coordinates in row-major order, as produced by the nested
`for r in range(3): for c in range(3)` loops. -/
def coords : List (Fin 3 × Fin 3) :=
  [(0, 0), (0, 1), (0, 2), (1, 0), (1, 1), (1, 2), (2, 0), (2, 1), (2, 2)]

/-- Row-major rank of a coordinate pair: `(r, c) ↦ 3 * r + c`.  The
row-major scan order of the Python loops visits cells in increasing
`rmIdx`. -/
def rmIdx (rc : Fin 3 × Fin 3) : Nat := 3 * rc.1.val + rc.2.val

/-- Embeds `is_board_full(board)` from game_logic.py:
`all(cell is not None for row in board for cell in row)`. -/
def is_board_full (b : Board) : Bool :=
  coords.all fun rc => (b rc.1 rc.2).isSome

/-- Embeds `next_turn(current)` from game_logic.py:
`return "O" if current == "X" else "X"`. -/
def next_turn (current : String) : String :=
  if current = "X" then "O" else "X"

/-- One scan of `best_ai_move`: the first empty cell in row-major order
at which hypothetically placing `s` makes `check_winner` return `s`
(the body of each of the two `for r / for c` loops). -/
def tryPlace (b : Board) (s : String) : Option (Fin 3 × Fin 3) :=
  coords.findSome? fun rc =>
    if b rc.1 rc.2 = none ∧ check_winner (setCell b rc.1 rc.2 (some s)) = some s
    then some rc else none

/-- The list of currently empty cells in row-major order, from
`empty = [(r, c) for r in range(3) for c in range(3) if board[r][c] is None]`. -/
def empty_cells (b : Board) : List (Fin 3 × Fin 3) :=
  coords.filter fun rc => (b rc.1 rc.2).isNone

/-- Embeds `best_ai_move(board, ai_symbol, user_symbol)` from game_logic.py:
try to win, then try to block the user's win, else pick a random empty
cell, and raise (`none`) if no empty cell exists.  `rnd : Nat` models
the draw of `random.choice(empty)` as the element at index
`rnd % empty.length`. -/
def best_ai_move (b : Board) (ai_symbol user_symbol : String) (rnd : Nat) :
    Option (Fin 3 × Fin 3) :=
  match tryPlace b ai_symbol with
  | some rc => some rc
  | none =>
    match tryPlace b user_symbol with
    | some rc => some rc
    | none =>
      let empty := empty_cells b
      if h : empty.length ≠ 0 then
        some (empty.get ⟨rnd % empty.length, Nat.mod_lt _ (Nat.pos_of_ne_zero h)⟩)
      else none

/-- A stored move record, as kept in the `moves` list of a game row
(`{"row": ..., "col": ..., "player": ...}` in main.py). -/
structure Move where
  row : Int
  col : Int
  player : String

/-- The turn-replay loop of `make_move` in main.py:
`turn = "X"; for m in moves: turn = next_turn(turn)`. -/
def replay_turn (moves : List Move) : String :=
  moves.foldl (fun t _ => next_turn t) "X"

/-- The concrete board `[[X,X,None],[O,O,None],[None,None,None]]` used
by the spec's AI-blocking scenario. -/
def board_b4 : Board := fun i j =>
  match i.val, j.val with
  | 0, 0 => some "X" | 0, 1 => some "X"
  | 1, 0 => some "O" | 1, 1 => some "O"
  | _, _ => none

/-- A concrete fully-occupied board with no winning line:
`[[X,O,X],[X,O,O],[O,X,X]]`. -/
def board_full : Board := fun i j =>
  match i.val, j.val with
  | 0, 0 => some "X" | 0, 1 => some "O" | 0, 2 => some "X"
  | 1, 0 => some "X" | 1, 1 => some "O" | 1, 2 => some "O"
  | 2, 0 => some "O" | 2, 1 => some "X" | 2, 2 => some "X"
  | _, _ => none

/-- A concrete board whose top row is all `X` and all other cells are
empty. -/
def board_rowX : Board := fun i j =>
  match i.val, j.val with
  | 0, 0 => some "X" | 0, 1 => some "X" | 0, 2 => some "X"
  | _, _ => none

/-- A concrete board `[[X,X,None],[None,None,None],[None,None,None]]`:
`X` threatens to win at `(0,2)` and `O` has no winning move. -/
def board_xx : Board := fun i j =>
  match i.val, j.val with
  | 0, 0 => some "X" | 0, 1 => some "X"
  | _, _ => none

/-!  Helper lemmas, shared by the claim theorems below. -/

/-- Characterisation of a won line: `lineWinner` returns `some s`
exactly when all three cells hold `some s`. -/
theorem lineWinner_eq_some_iff {x y z : Cell} {s : String} :
    lineWinner (x, y, z) = some s ↔ x = some s ∧ y = some s ∧ z = some s := by
  cases x with
  | none => simp [lineWinner]
  | some a =>
    simp only [lineWinner]
    by_cases h : y = some a ∧ z = some a
    · rw [if_pos h]
      constructor
      · intro hs
        injection hs with hs
        subst hs
        exact ⟨rfl, h.1, h.2⟩
      · rintro ⟨h1, _, _⟩
        exact h1
    · rw [if_neg h]
      constructor
      · intro hn
        cases hn
      · rintro ⟨h1, h2, h3⟩
        injection h1 with h1
        subst h1
        exact absurd ⟨h2, h3⟩ h

/-- The function `check_winner` scans the 8 lines in the interleaved order
row 0, col 0, row 1, col 1, row 2, col 2, diag, anti-diag, while the
spec states the order rows, then columns, then diagonals.  The two scans
return the same result, because any row and any column intersect, so a
completed row and a completed column necessarily carry the same
symbol. -/
theorem check_winner_eq_specOrder (b : Board) :
    check_winner b = check_winner_specOrder b := by
  simp only [check_winner, check_winner_specOrder, lines, linesSpecOrder,
    List.findSome?_cons, List.findSome?_nil]
  cases h1 : lineWinner (b 0 0, b 0 1, b 0 2) with
  | some s => rfl
  | none =>
    cases h2 : lineWinner (b 0 0, b 1 0, b 2 0) with
    | none =>
      cases h3 : lineWinner (b 1 0, b 1 1, b 1 2) with
      | some s => rfl
      | none =>
        cases h4 : lineWinner (b 0 1, b 1 1, b 2 1) with
        | none => rfl
        | some s =>
          cases h5 : lineWinner (b 2 0, b 2 1, b 2 2) with
          | none => rfl
          | some t =>
            have hc1 := lineWinner_eq_some_iff.mp h4
            have hr2 := lineWinner_eq_some_iff.mp h5
            have e2 := hr2.2.1
            rw [hc1.2.2] at e2
            injection e2 with e
            rw [e]
    | some s =>
      cases h3 : lineWinner (b 1 0, b 1 1, b 1 2) with
      | some t =>
        have hc0 := lineWinner_eq_some_iff.mp h2
        have hr1 := lineWinner_eq_some_iff.mp h3
        have e2 := hr1.1
        rw [hc0.2.1] at e2
        injection e2 with e
        rw [e]
      | none =>
        cases h5 : lineWinner (b 2 0, b 2 1, b 2 2) with
        | none => rfl
        | some t =>
          have hc0 := lineWinner_eq_some_iff.mp h2
          have hr2 := lineWinner_eq_some_iff.mp h5
          have e2 := hr2.1
          rw [hc0.2.2] at e2
          injection e2 with e
          rw [e]

/-- The scan `List.findSome?` returns the image of the element at index `i` when
`f` fails on every earlier element and succeeds at `i`. -/
theorem findSome?_at_index {α β : Type} (f : α → Option β) :
    ∀ (l : List α) (i : Nat) (hi : i < l.length),
      (∀ j (hj : j < l.length), j < i → f (l.get ⟨j, hj⟩) = none) →
      ∀ v, f (l.get ⟨i, hi⟩) = some v → l.findSome? f = some v := by
  intro l
  induction l with
  | nil =>
    intro i hi
    exact absurd hi (by simp)
  | cons a t ih =>
    intro i hi hprev v hv
    cases i with
    | zero =>
      rw [List.findSome?_cons]
      have ha : f a = some v := hv
      rw [ha]
    | succ n =>
      rw [List.findSome?_cons]
      have h0 : f a = none := hprev 0 (by simp) (Nat.succ_pos n)
      rw [h0]
      exact ih n (by simpa using hi)
        (fun j hj hlt => hprev (j + 1) (by simpa using hj) (by omega)) v hv

/-- Every coordinate pair occurs in the row-major scan list. -/
theorem mem_coords : ∀ rc : Fin 3 × Fin 3, rc ∈ coords := by decide

/-- The row-major rank of every coordinate is a valid index into
`coords`. -/
theorem rmIdx_lt_length : ∀ rc : Fin 3 × Fin 3, rmIdx rc < coords.length := by
  decide

/-- The list `coords` lists the coordinates in increasing row-major rank: the
element at index `rmIdx rc` is `rc` itself. -/
theorem coords_get_rmIdx :
    ∀ rc : Fin 3 × Fin 3, coords.get ⟨rmIdx rc, rmIdx_lt_length rc⟩ = rc := by
  decide

/-- Conversely, the row-major rank of the `j`-th element of `coords` is
`j`. -/
theorem rmIdx_coords_get (j : Nat) (hj : j < coords.length) :
    rmIdx (coords.get ⟨j, hj⟩) = j := by
  have hj9 : j < 9 := hj
  interval_cases j <;> rfl

/-- The scan of one `for r / for c` loop of `best_ai_move` returns the
row-major-first cell satisfying the win condition for `s`. -/
theorem tryPlace_first (b : Board) (s : String) (rc : Fin 3 × Fin 3)
    (hP : b rc.1 rc.2 = none ∧ check_winner (setCell b rc.1 rc.2 (some s)) = some s)
    (hmin : ∀ rc' : Fin 3 × Fin 3, rmIdx rc' < rmIdx rc →
      ¬(b rc'.1 rc'.2 = none ∧
        check_winner (setCell b rc'.1 rc'.2 (some s)) = some s)) :
    tryPlace b s = some rc := by
  apply findSome?_at_index _ coords (rmIdx rc) (rmIdx_lt_length rc)
  · intro j hj hlt
    rw [if_neg]
    apply hmin
    rw [rmIdx_coords_get j hj]
    exact hlt
  · rw [coords_get_rmIdx rc]
    rw [if_pos hP]

/-- If no cell satisfies the win condition for `s`, the scan fails. -/
theorem tryPlace_eq_none (b : Board) (s : String)
    (h : ∀ rc : Fin 3 × Fin 3, ¬(b rc.1 rc.2 = none ∧
      check_winner (setCell b rc.1 rc.2 (some s)) = some s)) :
    tryPlace b s = none := by
  rw [tryPlace, List.findSome?_eq_none_iff]
  intro rc _
  rw [if_neg (h rc)]

/-- A successful scan returns a cell satisfying the win condition (in
particular, a currently-empty cell). -/
theorem tryPlace_eq_some (b : Board) (s : String) (rc : Fin 3 × Fin 3)
    (h : tryPlace b s = some rc) :
    b rc.1 rc.2 = none ∧
      check_winner (setCell b rc.1 rc.2 (some s)) = some s := by
  obtain ⟨a, _, hfa⟩ := List.exists_of_findSome?_eq_some h
  by_cases hc : b a.1 a.2 = none ∧
      check_winner (setCell b a.1 a.2 (some s)) = some s
  · rw [if_pos hc] at hfa
    injection hfa with hfa
    rw [← hfa]
    exact hc
  · rw [if_neg hc] at hfa
    cases hfa

/-- Membership in the empty-cell list is exactly emptiness of the
cell. -/
theorem mem_empty_cells (b : Board) (rc : Fin 3 × Fin 3) :
    rc ∈ empty_cells b ↔ b rc.1 rc.2 = none := by
  rw [empty_cells, List.mem_filter]
  rw [Option.isNone_iff_eq_none]
  exact ⟨fun h => h.2, fun h => ⟨mem_coords rc, h⟩⟩

/-- The board is full exactly when the empty-cell list is empty. -/
theorem empty_cells_eq_nil_iff (b : Board) :
    empty_cells b = [] ↔ is_board_full b = true := by
  rw [empty_cells, is_board_full, List.filter_eq_nil_iff, List.all_eq_true]
  constructor
  · intro h rc hrc
    have := h rc hrc
    cases hb : b rc.1 rc.2 with
    | none => rw [hb] at this; simp at this
    | some v => rfl
  · intro h rc hrc
    have := h rc hrc
    cases hb : b rc.1 rc.2 with
    | none => rw [hb] at this; simp at this
    | some v => simp

/-- A full board leaves nothing for the win/block scans to find. -/
theorem tryPlace_of_full (b : Board) (s : String)
    (hfull : is_board_full b = true) : tryPlace b s = none := by
  apply tryPlace_eq_none
  intro rc hc
  have hmem : rc ∈ empty_cells b := (mem_empty_cells b rc).mpr hc.1
  rw [(empty_cells_eq_nil_iff b).mpr hfull] at hmem
  cases hmem

/-- In-range coordinates are taken as-is by Python indexing. -/
theorem pyIndex3_coe (r : Fin 3) : pyIndex3 (r.val : Int) = some r := by
  have hlt := r.isLt
  have h0 : (0 : Int) ≤ (r.val : Int) ∧ (r.val : Int) < 3 := by omega
  have hfin : (⟨((r.val : Int)).toNat, by omega⟩ : Fin 3) = r := Fin.ext (by simp)
  unfold pyIndex3
  rw [dif_pos h0, hfin]

/-- Wrapped coordinates: for `-3 ≤ i < 0`, Python indexing yields
index `i + 3`. -/
theorem pyIndex3_neg (i : Int) (h : -3 ≤ i ∧ i < 0) :
    pyIndex3 i = some ⟨(i + 3).toNat, by omega⟩ := by
  unfold pyIndex3
  rw [dif_neg (by omega), dif_pos h]

/-- C5: `validate_move(board, row, col)` returns true exactly when both
coordinates are in range `0..2` and the addressed cell is unoccupied;
any out-of-range coordinate yields false for every board.  (The
function is total — the Python code only indexes the board inside the
bounds check, so it never throws; the embedding is correspondingly a
total `Bool`-valued function.) -/
theorem validate_move_correct (b : Board) (row col : Int) :
    (validate_move b row col = true ↔
      ∃ r c : Fin 3, row = (r.val : Int) ∧ col = (c.val : Int) ∧ b r c = none) ∧
    ((row < 0 ∨ 2 < row ∨ col < 0 ∨ 2 < col) → validate_move b row col = false) := by
  constructor
  · unfold validate_move
    split
    · rename_i h
      rw [Option.isNone_iff_eq_none]
      constructor
      · intro hb
        refine ⟨⟨row.toNat, by omega⟩, ⟨col.toNat, by omega⟩,
          by show row = (row.toNat : Int); omega,
          by show col = (col.toNat : Int); omega, hb⟩
      · rintro ⟨r, c, hr, hc, hb⟩
        have hrw : (⟨row.toNat, by omega⟩ : Fin 3) = r := by
          apply Fin.ext
          show row.toNat = r.val
          omega
        have hcw : (⟨col.toNat, by omega⟩ : Fin 3) = c := by
          apply Fin.ext
          show col.toNat = c.val
          omega
        rw [hrw, hcw]
        exact hb
    · rename_i h
      constructor
      · intro hfalse
        cases hfalse
      · rintro ⟨r, c, hr, hc, hb⟩
        have h1 := r.isLt
        have h2 := c.isLt
        exact absurd (by omega) h
  · intro hout
    unfold validate_move
    rw [dif_neg (by omega)]

/-- C5 witness: out-of-range coordinates are rejected on a concrete
board. -/
theorem validate_move_correct_witness :
    validate_move empty_board (-1) 5 = false :=
  (validate_move_correct empty_board (-1) 5).2 (by decide)

/-- C6: on in-range coordinates `apply_move` succeeds and returns the
functional update of the board — the new board holds the symbol at
`(r,c)`, agrees with the input everywhere else (the input itself is
untouched: the embedding is pure, mirroring the row-copying in the
Python code), and `validate_move` now rejects `(r,c)` as occupied. -/
theorem apply_move_frame (b : Board) (r c : Fin 3) (s : String) :
    apply_move b (r.val : Int) (c.val : Int) s = some (setCell b r c (some s)) ∧
    setCell b r c (some s) r c = some s ∧
    (∀ i j : Fin 3, (i ≠ r ∨ j ≠ c) → setCell b r c (some s) i j = b i j) ∧
    validate_move (setCell b r c (some s)) (r.val : Int) (c.val : Int) = false := by
  refine ⟨?_, ?_, ?_, ?_⟩
  · unfold apply_move
    rw [pyIndex3_coe, pyIndex3_coe]
  · simp [setCell]
  · intro i j hij
    unfold setCell
    rw [if_neg]
    tauto
  · unfold validate_move
    have h1 := r.isLt
    have h2 := c.isLt
    rw [dif_pos (by omega)]
    have hrw : (⟨((r.val : Int)).toNat, by omega⟩ : Fin 3) = r := by
      apply Fin.ext
      simp
    have hcw : (⟨((c.val : Int)).toNat, by omega⟩ : Fin 3) = c := by
      apply Fin.ext
      simp
    rw [hrw, hcw]
    simp [setCell]

/-- C6 witness: the frame property applied at a concrete board and
cell. -/
theorem apply_move_frame_witness :
    setCell empty_board 1 1 (some "X") 0 2 = empty_board 0 2 :=
  (apply_move_frame empty_board 1 1 "X").2.2.1 0 2 (by decide)

/-- C9: for coordinates in `{-3,-2,-1}` `apply_move` does not fail: it
wraps like Python list indexing, agreeing with `apply_move` at
`(row+3, col+3)` and writing the symbol at the wrapped cell, even
though `validate_move` rejects these coordinates. -/
theorem apply_move_negative_wrap (b : Board) (s : String) (row col : Int)
    (hrow : -3 ≤ row ∧ row < 0) (hcol : -3 ≤ col ∧ col < 0) :
    apply_move b row col s = apply_move b (row + 3) (col + 3) s ∧
    validate_move b row col = false ∧
    ∃ r c : Fin 3, (r.val : Int) = row + 3 ∧ (c.val : Int) = col + 3 ∧
      ∃ b2, apply_move b row col s = some b2 ∧ b2 r c = some s := by
  have hr := pyIndex3_neg row hrow
  have hc := pyIndex3_neg col hcol
  have hr2 : pyIndex3 (row + 3) = some ⟨(row + 3).toNat, by omega⟩ := by
    unfold pyIndex3
    rw [dif_pos (by omega)]
  have hc2 : pyIndex3 (col + 3) = some ⟨(col + 3).toNat, by omega⟩ := by
    unfold pyIndex3
    rw [dif_pos (by omega)]
  refine ⟨?_, ?_, ?_⟩
  · unfold apply_move
    rw [hr, hc, hr2, hc2]
  · unfold validate_move
    rw [dif_neg (by omega)]
  · refine ⟨⟨(row + 3).toNat, by omega⟩, ⟨(col + 3).toNat, by omega⟩,
      by show ((row + 3).toNat : Int) = row + 3; omega,
      by show ((col + 3).toNat : Int) = col + 3; omega,
      setCell b ⟨(row + 3).toNat, by omega⟩ ⟨(col + 3).toNat, by omega⟩ (some s),
      ?_, ?_⟩
    · unfold apply_move
      rw [hr, hc]
    · simp [setCell]

/-- C9 witness: `apply_move` at `(-1, -2)` on the empty board. -/
theorem apply_move_negative_wrap_witness :
    apply_move empty_board (-1) (-2) "X" =
      apply_move empty_board (-1 + 3) (-2 + 3) "X" ∧
    validate_move empty_board (-1) (-2) = false ∧
    ∃ r c : Fin 3, (r.val : Int) = -1 + 3 ∧ (c.val : Int) = -2 + 3 ∧
      ∃ b2, apply_move empty_board (-1) (-2) "X" = some b2 ∧ b2 r c = some "X" :=
  apply_move_negative_wrap empty_board "X" (-1) (-2) (by decide) (by decide)

/-- C10: `next_turn` is total on strings and returns `"X"` on every
input other than the exact string `"X"`. -/
theorem next_turn_default (s : String) (h : s ≠ "X") : next_turn s = "X" := by
  unfold next_turn
  rw [if_neg h]

/-- C10 witness: an invalid symbol is mapped to `"X"`. -/
theorem next_turn_default_witness : next_turn "Z" = "X" :=
  next_turn_default "Z" (by decide)

/-- The turn accumulator after a fold is `next_turn` iterated once per
move. -/
theorem replay_turn_foldl (l : List Move) :
    ∀ t : String, l.foldl (fun t _ => next_turn t) t = next_turn^[l.length] t := by
  induction l with
  | nil => intro t; rfl
  | cons m ms ih =>
    intro t
    rw [List.foldl_cons, ih, List.length_cons, Function.iterate_succ_apply]

/-- Iterating `next_turn` from `"X"` alternates with the parity of the
iteration count. -/
theorem iterate_next_turn (n : Nat) :
    next_turn^[n] "X" = if n % 2 = 0 then "X" else "O" := by
  induction n with
  | zero => rfl
  | succ k ih =>
    rw [Function.iterate_succ_apply', ih]
    by_cases h : k % 2 = 0
    · rw [if_pos h, if_neg (by omega)]
      decide
    · rw [if_neg h, if_pos (by omega)]
      decide

/-- C8: `next_turn` alternates strictly between `"X"` and `"O"`, so the
turn after replaying a move list of length `n` (starting at `"X"` and
applying `next_turn` once per move, as `make_move` does) is `"X"` for
even `n` and `"O"` for odd `n`. -/
theorem next_turn_alternation :
    next_turn "X" = "O" ∧ next_turn "O" = "X" ∧
    ∀ moves : List Move,
      replay_turn moves = if moves.length % 2 = 0 then "X" else "O" := by
  refine ⟨by decide, by decide, fun moves => ?_⟩
  rw [replay_turn, replay_turn_foldl, iterate_next_turn]

/-- C2: if some empty cell gives the AI an immediate win, then
`best_ai_move` returns the first such cell in row-major order — with no
assumption on blocking cells, so a win is taken even when a block is
also available. -/
theorem best_ai_move_wins_first (b : Board) (ai user : String) (rnd : Nat)
    (rc : Fin 3 × Fin 3)
    (hwin : b rc.1 rc.2 = none ∧
      check_winner (setCell b rc.1 rc.2 (some ai)) = some ai)
    (hfirst : ∀ rc' : Fin 3 × Fin 3, rmIdx rc' < rmIdx rc →
      ¬(b rc'.1 rc'.2 = none ∧
        check_winner (setCell b rc'.1 rc'.2 (some ai)) = some ai)) :
    best_ai_move b ai user rnd = some rc := by
  unfold best_ai_move
  rw [tryPlace_first b ai rc hwin hfirst]

/-- C2 witness: on `[[X,X,None],[O,O,None],[None,None,None]]` with
AI = `X`, the AI wins at `(0,2)` although the block at `(1,2)` is also
available. -/
theorem best_ai_move_wins_first_witness :
    best_ai_move board_b4 "X" "O" 7 = some (0, 2) :=
  best_ai_move_wins_first board_b4 "X" "O" 7 (0, 2) (by decide) (by decide)

/-- C3: if no empty cell gives the AI an immediate win but some empty
cell would give the opponent an immediate win, `best_ai_move` returns
the first such blocking cell in row-major order. -/
theorem best_ai_move_blocks_first (b : Board) (ai user : String) (rnd : Nat)
    (rc : Fin 3 × Fin 3)
    (hnowin : ∀ rc' : Fin 3 × Fin 3,
      ¬(b rc'.1 rc'.2 = none ∧
        check_winner (setCell b rc'.1 rc'.2 (some ai)) = some ai))
    (hblock : b rc.1 rc.2 = none ∧
      check_winner (setCell b rc.1 rc.2 (some user)) = some user)
    (hfirst : ∀ rc' : Fin 3 × Fin 3, rmIdx rc' < rmIdx rc →
      ¬(b rc'.1 rc'.2 = none ∧
        check_winner (setCell b rc'.1 rc'.2 (some user)) = some user)) :
    best_ai_move b ai user rnd = some rc := by
  unfold best_ai_move
  rw [tryPlace_eq_none b ai hnowin, tryPlace_first b user rc hblock hfirst]

/-- C3 witness: on `[[X,X,None],[None,None,None],[None,None,None]]`
with AI = `O`, the AI has no winning cell and blocks `X` at `(0,2)`. -/
theorem best_ai_move_blocks_first_witness :
    best_ai_move board_xx "O" "X" 3 = some (0, 2) :=
  best_ai_move_blocks_first board_xx "O" "X" 3 (0, 2)
    (by decide) (by decide) (by decide)

/-- C4 counterexample: on `[[X,X,None],[O,O,None],[None,None,None]]`
with AI = `O`, the claim "the AI has no winning move available" is
false — placing `O` at the empty cell `(1,2)` completes the middle row
and wins. -/
theorem ai_block_scenario_counterexample :
    ¬ (∀ rc : Fin 3 × Fin 3,
      ¬(board_b4 rc.1 rc.2 = none ∧
        check_winner (setCell board_b4 rc.1 rc.2 (some "O")) = some "O")) := by
  decide

/-- C4 (amended): on `[[X,X,None],[O,O,None],[None,None,None]]` with
AI = `O` and opponent `X`, the AI has a winning move at `(1,2)`
(completing the middle row), and `best_ai_move` deterministically
returns `(1,2)` for every draw of the random source — via the win rule,
not the block rule. -/
theorem ai_block_scenario (rnd : Nat) :
    board_b4 1 2 = none ∧
    check_winner (setCell board_b4 1 2 (some "O")) = some "O" ∧
    best_ai_move board_b4 "O" "X" rnd = some (1, 2) :=
  ⟨by decide, by decide, rfl⟩

/-- C7: `best_ai_move` fails (raises "No moves left", embedded as
`none`) exactly when the board is fully occupied, and whenever it
returns a cell — through the win, block, or random branch — that cell
is currently empty. -/
theorem best_ai_move_no_legal_moves (b : Board) (ai user : String) (rnd : Nat) :
    (best_ai_move b ai user rnd = none ↔ is_board_full b = true) ∧
    ∀ rc : Fin 3 × Fin 3, best_ai_move b ai user rnd = some rc →
      b rc.1 rc.2 = none := by
  constructor
  · constructor
    · intro hnone
      by_contra hfull
      have hne : empty_cells b ≠ [] :=
        fun h => hfull ((empty_cells_eq_nil_iff b).mp h)
      have hlen : (empty_cells b).length ≠ 0 :=
        fun h => hne (List.length_eq_zero.mp h)
      cases h1 : tryPlace b ai with
      | some rc0 =>
        simp only [best_ai_move, h1] at hnone
        cases hnone
      | none =>
        cases h2 : tryPlace b user with
        | some rc0 =>
          simp only [best_ai_move, h1, h2] at hnone
          cases hnone
        | none =>
          simp only [best_ai_move, h1, h2, dif_pos hlen] at hnone
          cases hnone
    · intro hfull
      have h1 := tryPlace_of_full b ai hfull
      have h2 := tryPlace_of_full b user hfull
      have hnil : empty_cells b = [] := (empty_cells_eq_nil_iff b).mpr hfull
      simp [best_ai_move, h1, h2, hnil]
  · intro rc hrc
    cases h1 : tryPlace b ai with
    | some rc1 =>
      simp only [best_ai_move, h1, Option.some.injEq] at hrc
      rw [← hrc]
      exact (tryPlace_eq_some b ai rc1 h1).1
    | none =>
      cases h2 : tryPlace b user with
      | some rc2 =>
        simp only [best_ai_move, h1, h2, Option.some.injEq] at hrc
        rw [← hrc]
        exact (tryPlace_eq_some b user rc2 h2).1
      | none =>
        simp only [best_ai_move, h1, h2] at hrc
        by_cases h3 : (empty_cells b).length ≠ 0
        · rw [dif_pos h3, Option.some.injEq] at hrc
          have hmem := List.get_mem (empty_cells b)
            (rnd % (empty_cells b).length) (Nat.mod_lt _ (Nat.pos_of_ne_zero h3))
          rw [← hrc]
          exact (mem_empty_cells b _).mp hmem
        · rw [dif_neg h3] at hrc
          cases hrc

/-- C7 witness: on a concrete full board the AI selector fails. -/
theorem best_ai_move_no_legal_moves_witness :
    best_ai_move board_full "X" "O" 0 = none :=
  (best_ai_move_no_legal_moves board_full "X" "O" 0).1.mpr (by decide)

/-- C1: `check_winner` agrees with the spec-ordered scan (rows
top-to-bottom, then columns left-to-right, then the two diagonals, the
symbol of the first matching line winning); whenever it returns a
symbol `s`, one of the 8 lines has all three cells equal to `some s`;
and it returns `None` exactly when no line is completed by a single
non-empty symbol. -/
theorem check_winner_correct (b : Board) :
    check_winner b = check_winner_specOrder b ∧
    (∀ s : String, check_winner b = some s →
      (some s, some s, some s) ∈ linesSpecOrder b) ∧
    (check_winner b = none ↔
      ∀ s : String, (some s, some s, some s) ∉ linesSpecOrder b) := by
  refine ⟨check_winner_eq_specOrder b, ?_, ?_⟩
  · intro s h
    rw [check_winner_eq_specOrder] at h
    obtain ⟨l, hl, hfl⟩ := List.exists_of_findSome?_eq_some h
    obtain ⟨x, y, z⟩ := l
    obtain ⟨hx, hy, hz⟩ := lineWinner_eq_some_iff.mp hfl
    subst hx
    subst hy
    subst hz
    exact hl
  · rw [check_winner_eq_specOrder, check_winner_specOrder,
      List.findSome?_eq_none_iff]
    constructor
    · intro h s hmem
      have hline := h _ hmem
      have he : lineWinner (some s, some s, some s) = some s :=
        lineWinner_eq_some_iff.mpr ⟨rfl, rfl, rfl⟩
      rw [he] at hline
      cases hline
    · intro h l hl
      obtain ⟨x, y, z⟩ := l
      cases hw : lineWinner (x, y, z) with
      | none => rfl
      | some s =>
        obtain ⟨hx, hy, hz⟩ := lineWinner_eq_some_iff.mp hw
        subst hx
        subst hy
        subst hz
        exact absurd hl (h s)

/-- C1 witness: on the board whose top row is `X,X,X`, the returned
symbol's line is among the 8 lines. -/
theorem check_winner_correct_witness :
    (some "X", some "X", some "X") ∈ linesSpecOrder board_rowX :=
  (check_winner_correct board_rowX).2.1 "X" (by decide)

end TicTacToe
